import Mathlib

/-!
Shallow embedding of the NMogdishu-Mix-Data-System core logic
(`src/lib/validation.ts`, the mix-data hooks, and the summary-modal
aggregation functions) together with theorems settling the specification
claims about validation and aggregation.

JS numbers are modelled as rationals (`ℚ`); JS `undefined`/optional fields
as `Option`; JS objects used as string-keyed dictionaries as association
lists in insertion order (a new key is appended at the end, matching JS
object key order).

The zod schema `mixDataSchema` is embedded as an issue-collecting function
over type-correct candidates (the shape `MixDataFormInput` produced by the
entry form): on such candidates every failed zod check (range checks,
non-empty-array check, per-element checks) adds a non-fatal issue, and all
five chained `.refine` predicates still execute when the base object parse
only has non-fatal issues, so the full list of issues is collected.
-/

namespace NMS

/-- Mix type tag: `'interlock' | 'boards/tiir'` (`src/types/index.ts`). -/
inductive MixType where
  | interlock
  | boardsTiir
deriving DecidableEq, Repr

/-- The string value of the mix-type tag as used for object keys. -/
def mixTypeStr : MixType → String
  | .interlock => "interlock"
  | .boardsTiir => "boards/tiir"

/-- A product entry `{ type: string; quantity: number }`. -/
structure Product where
  type : String
  quantity : ℚ
deriving DecidableEq, Repr

/-- `colorOptions` from `src/lib/validation.ts`. -/
def colorOptions : List String :=
  ["Red", "Pure Red", "White", "Black", "Yellow"]

/-- `interlockTypes` from `src/lib/validation.ts`. -/
def interlockTypes : List String :=
  ["Block Interlock", "Buuor Interlock", "Daimond Interlock",
   "Tiiba Talyaani Interlock", "York Shir Interlock", "Garden"]

/-- `boardsTiirTypes` from `src/lib/validation.ts`. -/
def boardsTiirTypes : List String :=
  ["Tiir", "Boards"]

/-- The closed product-type vocabulary for a mix type. -/
def vocabFor : MixType → List String
  | .interlock => interlockTypes
  | .boardsTiir => boardsTiirTypes

/-- The candidate shape validated by `mixDataSchema`
(`MixDataFormInput = z.infer<typeof mixDataSchema>`). -/
structure MixDataFormInput where
  mixType : MixType
  cement : ℚ
  aggregate : ℚ
  sand : ℚ
  water : ℚ
  plastizer : ℚ
  birta : Option ℚ
  colorType : String
  colorQuantity : ℚ
  products : List Product
deriving DecidableEq, Repr

/-- A zod validation issue: a field path and a human-readable message. -/
structure Issue where
  path : List String
  message : String
deriving DecidableEq, Repr

/-- `if b then [] else [i]`: the issue `i` is reported exactly when the
check `b` fails. -/
def condIssue (b : Bool) (i : Issue) : List Issue :=
  if b then [] else [i]

/-- Issues of a `z.number().min(0).max(hi)` check on field `name`
holding value `v`. -/
def rangeIssues (name : String) (v : ℚ) (hi : ℚ) : List Issue :=
  condIssue (decide (0 ≤ v)) ⟨[name], "Number must be greater than or equal to 0"⟩ ++
    condIssue (decide (v ≤ hi)) ⟨[name], "Number must be less than or equal to the maximum"⟩

/-- Issues of `productSchema` on the `idx`-th element of `products`:
`type: z.string().min(1)`, `quantity: z.number().min(0).max(9999)`. -/
def productIssues (idx : Nat) (p : Product) : List Issue :=
  condIssue (decide (p.type ≠ "")) ⟨["products", toString idx, "type"], "Product type is required"⟩ ++
    (condIssue (decide (0 ≤ p.quantity)) ⟨["products", toString idx, "quantity"], "Quantity must be positive"⟩ ++
      condIssue (decide (p.quantity ≤ 9999)) ⟨["products", toString idx, "quantity"], "Quantity too large"⟩)

/-- Issues of `z.array(productSchema).min(1)` on `products`: the array
minimum-length check, then each element checked by `productSchema`. -/
def arrayIssues (ps : List Product) : List Issue :=
  condIssue (decide (1 ≤ ps.length)) ⟨["products"], "At least one product is required"⟩ ++
    (ps.enum.map (fun ip => productIssues ip.1 ip.2)).flatten

/-- Issues of the base object schema (field checks in shape order);
`mixType` (enum) and `colorType` (plain `z.string()`) have no checks on a
type-correct candidate. -/
def baseIssues (c : MixDataFormInput) : List Issue :=
  rangeIssues "cement" c.cement (9999.99 : ℚ) ++
    (rangeIssues "aggregate" c.aggregate (9999.99 : ℚ) ++
      (rangeIssues "sand" c.sand (9999.99 : ℚ) ++
        (rangeIssues "water" c.water (9999.99 : ℚ) ++
          (rangeIssues "plastizer" c.plastizer (9999.99 : ℚ) ++
            ((match c.birta with
              | none => []
              | some b => rangeIssues "birta" b (9999 : ℚ)) ++
              (rangeIssues "colorQuantity" c.colorQuantity (9999.99 : ℚ) ++
                arrayIssues c.products))))))

/-- First `.refine`: `birta` must be present when `mixType = 'boards/tiir'`
(`data.birta === undefined || data.birta === null` is `birta = none`). -/
def refineBirta (c : MixDataFormInput) : Bool :=
  if c.mixType = .boardsTiir ∧ c.birta = none then false else true

/-- Second `.refine`: `colorType` is the empty string or a palette member
(`colorOptions.includes`). -/
def refineColor (c : MixDataFormInput) : Bool :=
  decide (c.colorType = "" ∨ c.colorType ∈ colorOptions)

/-- Third `.refine`: every product type belongs to the vocabulary of the
selected mix type (vacuously true on an empty product list). -/
def refineVocab (c : MixDataFormInput) : Bool :=
  if 0 < c.products.length then
    match c.mixType with
    | .interlock => decide (∀ p ∈ c.products, p.type ∈ interlockTypes)
    | .boardsTiir => decide (∀ p ∈ c.products, p.type ∈ boardsTiirTypes)
  else true

/-- The size of the JS `Set` of a string list: the number of distinct
elements. -/
def distinctCount (l : List String) : Nat :=
  l.dedup.length

/-- The duplicate check shared by the fourth and fifth `.refine`:
`filter(Boolean)` drops empty-string types, then the list length is
compared with its `Set` size. -/
def noDupTypes (ps : List Product) : Bool :=
  decide (((ps.map (fun p => p.type)).filter (fun t => t ≠ "")).length =
    distinctCount ((ps.map (fun p => p.type)).filter (fun t => t ≠ "")))

/-- Fourth `.refine`: no duplicate interlock types. -/
def refineDupInterlock (c : MixDataFormInput) : Bool :=
  if c.mixType = .interlock ∧ 0 < c.products.length then noDupTypes c.products
  else true

/-- Fifth `.refine`: no duplicate boards/tiir types. -/
def refineDupBoards (c : MixDataFormInput) : Bool :=
  if c.mixType = .boardsTiir ∧ 0 < c.products.length then noDupTypes c.products
  else true

/-- The issues contributed by the five chained `.refine` checks, in order. -/
def refineIssues (c : MixDataFormInput) : List Issue :=
  condIssue (refineBirta c) ⟨["birta"], "Birta is required for boards/tiir mix type"⟩ ++
    (condIssue (refineColor c) ⟨["colorType"], "Invalid color type"⟩ ++
      (condIssue (refineVocab c) ⟨["products"], "Invalid product type for selected mix type"⟩ ++
        (condIssue (refineDupInterlock c) ⟨["products"], "Cannot select the same interlock type twice"⟩ ++
          condIssue (refineDupBoards c) ⟨["products"], "Cannot select the same product type twice"⟩)))

/-- All issues `mixDataSchema.safeParse` reports on a type-correct
candidate: the base-object issues followed by the refinement issues. -/
def mixDataIssues (c : MixDataFormInput) : List Issue :=
  baseIssues c ++ refineIssues c

/-- `safeParse` succeeds exactly when no issue is reported. -/
def validateOk (c : MixDataFormInput) : Prop :=
  mixDataIssues c = []

/-- The field paths of all reported violations. -/
def issuePaths (c : MixDataFormInput) : List (List String) :=
  (mixDataIssues c).map (fun i => i.path)

/-- `MixEntryForm.onSubmit`: `{...data, colorType: data.colorType || 'No Color'}`. -/
def transformedData (c : MixDataFormInput) : MixDataFormInput :=
  { c with colorType := if c.colorType = "" then "No Color" else c.colorType }

/-- The stored `measurements` object of a `MixData` record
(`src/types/index.ts`): `birta` and `products` are optional. -/
structure Measurements where
  cement : ℚ
  aggregate : ℚ
  sand : ℚ
  water : ℚ
  plastizer : ℚ
  birta : Option ℚ
  colorType : String
  colorQuantity : ℚ
  products : Option (List Product)
deriving DecidableEq, Repr

/-- A stored mix record (`MixData` in `src/types/index.ts`). -/
structure MixData where
  id : String
  timestamp : String
  mixType : MixType
  measurements : Measurements
  createdBy : String
  lastModified : String
deriving DecidableEq, Repr

/-- `useCreateMixData().mutationFn`: builds the stored record from the form
data. `birta` is spread in exactly when present (`formData.birta !==
undefined`); `products` is always present on a form input; an empty
`colorType` defaults to `'No Color'`. -/
def createMixData (idStr timestampStr : String) (f : MixDataFormInput) : MixData :=
  { id := idStr
    timestamp := timestampStr
    mixType := f.mixType
    measurements :=
      { cement := f.cement
        aggregate := f.aggregate
        sand := f.sand
        water := f.water
        plastizer := f.plastizer
        birta := f.birta
        colorType := if f.colorType = "" then "No Color" else f.colorType
        colorQuantity := f.colorQuantity
        products := some f.products }
    createdBy := "demo-user"
    lastModified := timestampStr }

/-- `useDeleteMixData().mutationFn`:
`existingData.filter(item => item.id !== id)`. -/
def deleteMixData (idStr : String) (store : List MixData) : List MixData :=
  store.filter (fun item => item.id ≠ idStr)

/-- JS string-keyed dictionaries as association lists in key-insertion
order. `updD m k d f` is `m[k] = f(m[k] ?? d)`: it updates the value at the
first occurrence of key `k`, or appends `(k, f d)` at the end when `k` is
absent — matching JS object key-insertion order. -/
def updD {α : Type} (m : List (String × α)) (k : String) (d : α) (f : α → α) :
    List (String × α) :=
  match m with
  | [] => [(k, f d)]
  | (k', v) :: rest =>
      if k' = k then (k', f v) :: rest else (k', v) :: updD rest k d f

/-- Look up the value at key `k` (first occurrence). -/
def findV {α : Type} (m : List (String × α)) (k : String) : Option α :=
  match m with
  | [] => none
  | (k', v) :: rest => if k' = k then some v else findV rest k

/-- Look up with a default for an absent key. -/
def getVD {α : Type} (m : List (String × α)) (k : String) (d : α) : α :=
  (findV m k).getD d

/-- Sum of a valuation over all values of a dictionary. -/
def sumBy {α : Type} (μ : α → ℚ) (m : List (String × α)) : ℚ :=
  (m.map (fun kv => μ kv.2)).sum

/-- `obj[key] = (obj[key] || 0) + q` on a numeric dictionary. -/
def bumpQ (m : List (String × ℚ)) (k : String) (q : ℚ) : List (String × ℚ) :=
  updD m k 0 (fun v => v + q)

/-- One record's step of `TotalProductsModal.calculateTotals`: each
product quantity is accumulated into the interlock or boards/tiir
dictionary according to the record's mix type; a record without a
`products` list is skipped. -/
def totalsStep (acc : List (String × ℚ) × List (String × ℚ)) (mix : MixData) :
    List (String × ℚ) × List (String × ℚ) :=
  match mix.measurements.products with
  | none => acc
  | some ps =>
      ps.foldl
        (fun acc2 p =>
          match mix.mixType with
          | .interlock => (bumpQ acc2.1 p.type p.quantity, acc2.2)
          | .boardsTiir => (acc2.1, bumpQ acc2.2 p.type p.quantity))
        acc

/-- `TotalProductsModal.calculateTotals`: one pass over the records,
starting from two empty dictionaries. -/
def calculateTotals (recs : List MixData) :
    List (String × ℚ) × List (String × ℚ) :=
  recs.foldl totalsStep ([], [])

/-- `TotalProductsModal.getTotalQuantity`: sum of the values of a totals
dictionary. -/
def getTotalQuantity (m : List (String × ℚ)) : ℚ :=
  sumBy (fun v => v) m

/-- The grand total displayed by the totals modal:
`getTotalQuantity(interlockTotals) + getTotalQuantity(boardsTiirTotals)`. -/
def grandTotal (recs : List MixData) : ℚ :=
  getTotalQuantity (calculateTotals recs).1 + getTotalQuantity (calculateTotals recs).2

/-- `mix.measurements.colorType || 'No Color'`. -/
def colorOf (mix : MixData) : String :=
  if mix.measurements.colorType = "" then "No Color" else mix.measurements.colorType

/-- One record's step of `FilteredProductsModal.calculateColorTotals`:
ensure the `color` bucket, ensure the `color → mixType` bucket, then
accumulate each product quantity into `color → mixType → productType`. -/
def colorStep (g : List (String × List (String × List (String × ℚ))))
    (mix : MixData) : List (String × List (String × List (String × ℚ))) :=
  let color := colorOf mix
  let mt := mixTypeStr mix.mixType
  let g1 := updD g color [] (fun inner => inner)
  let g2 := updD g1 color [] (fun inner => updD inner mt [] (fun inner2 => inner2))
  match mix.measurements.products with
  | none => g2
  | some ps =>
      ps.foldl
        (fun gg p =>
          updD gg color []
            (fun inner => updD inner mt []
              (fun inner2 => bumpQ inner2 p.type p.quantity)))
        g2

/-- `FilteredProductsModal.calculateColorTotals`: totals grouped as
`color → mixType → productType → quantity`. -/
def calculateColorTotals (recs : List MixData) :
    List (String × List (String × List (String × ℚ))) :=
  recs.foldl colorStep []

/-- One record's step of `FilteredProductsModal.calculateProductTotals`:
each product quantity is accumulated into `productType → color`; a record
without a `products` list contributes nothing. -/
def productStep (g : List (String × List (String × ℚ))) (mix : MixData) :
    List (String × List (String × ℚ)) :=
  match mix.measurements.products with
  | none => g
  | some ps =>
      ps.foldl
        (fun gg p =>
          updD gg p.type [] (fun inner => bumpQ inner (colorOf mix) p.quantity))
        g

/-- `FilteredProductsModal.calculateProductTotals`: totals grouped as
`productType → color → quantity`. -/
def calculateProductTotals (recs : List MixData) :
    List (String × List (String × ℚ)) :=
  recs.foldl productStep []

/-- The quantity recorded for a given color, mix type and product type in
the color-grouped totals (0 when absent). -/
def lookupColor (g : List (String × List (String × List (String × ℚ))))
    (color mt t : String) : ℚ :=
  getVD (getVD (getVD g color []) mt []) t 0

/-- The sum of all leaf quantities of the color-grouped totals (the grand
total over every color section). -/
def colorLeafSum (g : List (String × List (String × List (String × ℚ)))) : ℚ :=
  sumBy (sumBy (sumBy (fun v => v))) g

/-- Sum of the quantities of a product list. -/
def qsum (ps : List Product) : ℚ :=
  (ps.map (fun p => p.quantity)).sum

/-- Sum of the quantities of the products of type `t` in a product list. -/
def typeSum (t : String) (ps : List Product) : ℚ :=
  (ps.map (fun p => if p.type = t then p.quantity else 0)).sum

/-- The total quantity of product type `t` over all records of mix type
`mt` — the per-bucket sum the mix-type aggregation is specified to
compute. -/
def mixTypeSum (recs : List MixData) (mt : MixType) (t : String) : ℚ :=
  (recs.map (fun r =>
    if r.mixType = mt then typeSum t (r.measurements.products.getD []) else 0)).sum

/-- The total quantity of product type `t` under color `color` and
mix-type key `mt` over all records — the per-bucket sum the color-grouped
aggregation is specified to compute. -/
def colorSum (recs : List MixData) (color mt t : String) : ℚ :=
  (recs.map (fun r =>
    if color = colorOf r ∧ mt = mixTypeStr r.mixType then
      typeSum t (r.measurements.products.getD [])
    else 0)).sum

/-! ### Helper lemmas about the validation embedding -/

theorem eq_of_mem_condIssue {b : Bool} {i x : Issue} (h : x ∈ condIssue b i) :
    x = i := by
  cases b <;> simp [condIssue] at h
  exact h

theorem mem_condIssue_of_false {b : Bool} (h : b = false) (i : Issue) :
    i ∈ condIssue b i := by
  simp [condIssue, h]

theorem condIssue_eq_nil {b : Bool} {i : Issue} (h : condIssue b i = []) :
    b = true := by
  cases b <;> simp [condIssue] at h ⊢

theorem path_of_mem_rangeIssues {name : String} {v hi : ℚ} {x : Issue}
    (h : x ∈ rangeIssues name v hi) : x.path = [name] := by
  rw [rangeIssues] at h
  rcases List.mem_append.1 h with h | h <;> rw [eq_of_mem_condIssue h]

theorem mem_rangeIssues_self (name : String) {v hi : ℚ}
    (h : ¬(0 ≤ v ∧ v ≤ hi)) : ∃ x ∈ rangeIssues name v hi, x.path = [name] := by
  rcases not_and_or.1 h with h | h
  · exact ⟨_, List.mem_append_left _ (mem_condIssue_of_false (decide_eq_false h) _), rfl⟩
  · exact ⟨_, List.mem_append_right _ (mem_condIssue_of_false (decide_eq_false h) _), rfl⟩

theorem rangeIssues_eq_nil {name : String} {v hi : ℚ}
    (h0 : 0 ≤ v) (h1 : v ≤ hi) : rangeIssues name v hi = [] := by
  simp [rangeIssues, condIssue, h0, h1]

theorem path_head_of_mem_productIssues {idx : Nat} {p : Product} {x : Issue}
    (h : x ∈ productIssues idx p) : x.path.head? = some "products" := by
  rw [productIssues] at h
  rcases List.mem_append.1 h with h | h
  · rw [eq_of_mem_condIssue h]; rfl
  · rcases List.mem_append.1 h with h | h <;> (rw [eq_of_mem_condIssue h]; rfl)

theorem path_head_of_mem_arrayIssues {ps : List Product} {x : Issue}
    (h : x ∈ arrayIssues ps) : x.path.head? = some "products" := by
  rw [arrayIssues] at h
  rcases List.mem_append.1 h with h | h
  · rw [eq_of_mem_condIssue h]; rfl
  · obtain ⟨l, hl, hx⟩ := List.mem_flatten.1 h
    obtain ⟨ip, _, rfl⟩ := List.mem_map.1 hl
    exact path_head_of_mem_productIssues hx

theorem base_path_mem {c : MixDataFormInput} {x : Issue}
    (h : x ∈ baseIssues c) : x.path ∈ issuePaths c :=
  List.mem_map_of_mem _ (List.mem_append_left _ h)

theorem refine_path_mem {c : MixDataFormInput} {x : Issue}
    (h : x ∈ refineIssues c) : x.path ∈ issuePaths c :=
  List.mem_map_of_mem _ (List.mem_append_right _ h)

theorem refineBirta_issue {c : MixDataFormInput} (h : refineBirta c = false) :
    ["birta"] ∈ issuePaths c := by
  have hm : (⟨["birta"], "Birta is required for boards/tiir mix type"⟩ : Issue) ∈
      refineIssues c := by
    rw [refineIssues]
    exact List.mem_append_left _ (mem_condIssue_of_false h _)
  exact refine_path_mem hm

theorem refineColor_issue {c : MixDataFormInput} (h : refineColor c = false) :
    ["colorType"] ∈ issuePaths c := by
  have hm : (⟨["colorType"], "Invalid color type"⟩ : Issue) ∈ refineIssues c := by
    rw [refineIssues]
    exact List.mem_append_right _ (List.mem_append_left _ (mem_condIssue_of_false h _))
  exact refine_path_mem hm

theorem refineVocab_issue {c : MixDataFormInput} (h : refineVocab c = false) :
    ["products"] ∈ issuePaths c := by
  have hm : (⟨["products"], "Invalid product type for selected mix type"⟩ : Issue) ∈
      refineIssues c := by
    rw [refineIssues]
    exact List.mem_append_right _ (List.mem_append_right _
      (List.mem_append_left _ (mem_condIssue_of_false h _)))
  exact refine_path_mem hm

theorem refineDupInterlock_issue {c : MixDataFormInput}
    (h : refineDupInterlock c = false) : ["products"] ∈ issuePaths c := by
  have hm : (⟨["products"], "Cannot select the same interlock type twice"⟩ : Issue) ∈
      refineIssues c := by
    rw [refineIssues]
    exact List.mem_append_right _ (List.mem_append_right _ (List.mem_append_right _
      (List.mem_append_left _ (mem_condIssue_of_false h _))))
  exact refine_path_mem hm

theorem refineDupBoards_issue {c : MixDataFormInput}
    (h : refineDupBoards c = false) : ["products"] ∈ issuePaths c := by
  have hm : (⟨["products"], "Cannot select the same product type twice"⟩ : Issue) ∈
      refineIssues c := by
    rw [refineIssues]
    exact List.mem_append_right _ (List.mem_append_right _ (List.mem_append_right _
      (List.mem_append_right _ (mem_condIssue_of_false h _))))
  exact refine_path_mem hm

/-- Any base-object issue comes from one of the field checks: its path
starts with the checked field's name (for `birta` the membership itself is
exposed, so callers can discharge it when `birta` is in range). -/
theorem baseIssues_cases {c : MixDataFormInput} {x : Issue}
    (h : x ∈ baseIssues c) :
    x.path = ["cement"] ∨ x.path = ["aggregate"] ∨ x.path = ["sand"] ∨
    x.path = ["water"] ∨ x.path = ["plastizer"] ∨
    (∃ b, c.birta = some b ∧ x ∈ rangeIssues "birta" b 9999) ∨
    x.path = ["colorQuantity"] ∨ x.path.head? = some "products" := by
  rw [baseIssues] at h
  rcases List.mem_append.1 h with h | h
  · exact Or.inl (path_of_mem_rangeIssues h)
  rcases List.mem_append.1 h with h | h
  · exact Or.inr (Or.inl (path_of_mem_rangeIssues h))
  rcases List.mem_append.1 h with h | h
  · exact Or.inr (Or.inr (Or.inl (path_of_mem_rangeIssues h)))
  rcases List.mem_append.1 h with h | h
  · exact Or.inr (Or.inr (Or.inr (Or.inl (path_of_mem_rangeIssues h))))
  rcases List.mem_append.1 h with h | h
  · exact Or.inr (Or.inr (Or.inr (Or.inr (Or.inl (path_of_mem_rangeIssues h)))))
  rcases List.mem_append.1 h with h | h
  · rcases hb : c.birta with _ | b
    · rw [hb] at h; simp at h
    · rw [hb] at h
      exact Or.inr (Or.inr (Or.inr (Or.inr (Or.inr (Or.inl ⟨b, rfl, h⟩)))))
  rcases List.mem_append.1 h with h | h
  · exact Or.inr (Or.inr (Or.inr (Or.inr (Or.inr (Or.inr
      (Or.inl (path_of_mem_rangeIssues h)))))))
  · exact Or.inr (Or.inr (Or.inr (Or.inr (Or.inr (Or.inr
      (Or.inr (path_head_of_mem_arrayIssues h)))))))

/-- When the `colorType` refinement passes, no reported violation has
field path `colorType` (the base schema never checks `colorType`). -/
theorem not_colorType_path {c : MixDataFormInput}
    (h : refineColor c = true) : ["colorType"] ∉ issuePaths c := by
  intro hmem
  obtain ⟨x, hx, hpath⟩ := List.mem_map.1 hmem
  rcases List.mem_append.1 hx with hb | hr
  · rcases baseIssues_cases hb with h1|h1|h1|h1|h1|⟨b, _, h1⟩|h1|h1
    · rw [hpath] at h1; simp at h1
    · rw [hpath] at h1; simp at h1
    · rw [hpath] at h1; simp at h1
    · rw [hpath] at h1; simp at h1
    · rw [hpath] at h1; simp at h1
    · have h2 := path_of_mem_rangeIssues h1; rw [hpath] at h2; simp at h2
    · rw [hpath] at h1; simp at h1
    · rw [hpath] at h1; simp at h1
  · rw [refineIssues] at hr
    rcases List.mem_append.1 hr with h1 | hr
    · rw [eq_of_mem_condIssue h1] at hpath; simp at hpath
    rcases List.mem_append.1 hr with h1 | hr
    · rw [h] at h1; simp [condIssue] at h1
    rcases List.mem_append.1 hr with h1 | hr
    · rw [eq_of_mem_condIssue h1] at hpath; simp at hpath
    rcases List.mem_append.1 hr with h1 | h1 <;>
      (rw [eq_of_mem_condIssue h1] at hpath; simp at hpath)

/-- When the record is an interlock record and any present `birta` value
is within `[0, 9999]`, no reported violation has field path `birta`. -/
theorem not_birta_path {c : MixDataFormInput}
    (hmix : c.mixType = .interlock)
    (hok : c.birta = none ∨ ∃ b, c.birta = some b ∧ 0 ≤ b ∧ b ≤ 9999) :
    ["birta"] ∉ issuePaths c := by
  intro hmem
  obtain ⟨x, hx, hpath⟩ := List.mem_map.1 hmem
  rcases List.mem_append.1 hx with hb | hr
  · rcases baseIssues_cases hb with h1|h1|h1|h1|h1|⟨b, hbeq, h1⟩|h1|h1
    · rw [hpath] at h1; simp at h1
    · rw [hpath] at h1; simp at h1
    · rw [hpath] at h1; simp at h1
    · rw [hpath] at h1; simp at h1
    · rw [hpath] at h1; simp at h1
    · rcases hok with hok | ⟨b', hb', hlo, hhi⟩
      · rw [hok] at hbeq; simp at hbeq
      · rw [hb'] at hbeq
        obtain rfl : b = b' := by injection hbeq.symm
        rw [rangeIssues_eq_nil hlo hhi] at h1; simp at h1
    · rw [hpath] at h1; simp at h1
    · rw [hpath] at h1; simp at h1
  · rw [refineIssues] at hr
    rcases List.mem_append.1 hr with h1 | hr
    · have hrb : refineBirta c = true := by
        rw [refineBirta, if_neg]; rintro ⟨hb2, -⟩; rw [hmix] at hb2; exact absurd hb2 (by simp)
      rw [hrb] at h1; simp [condIssue] at h1
    rcases List.mem_append.1 hr with h1 | hr
    · rw [eq_of_mem_condIssue h1] at hpath; simp at hpath
    rcases List.mem_append.1 hr with h1 | hr
    · rw [eq_of_mem_condIssue h1] at hpath; simp at hpath
    rcases List.mem_append.1 hr with h1 | h1 <;>
      (rw [eq_of_mem_condIssue h1] at hpath; simp at hpath)

/-- A product whose type is outside the vocabulary of the record's mix
type forces a violation on field path `products`. -/
theorem vocab_issue {c : MixDataFormInput} {p : Product}
    (hp : p ∈ c.products) (hv : p.type ∉ vocabFor c.mixType) :
    ["products"] ∈ issuePaths c := by
  apply refineVocab_issue
  have hlen : 0 < c.products.length := List.length_pos_of_mem hp
  rcases hmix : c.mixType with _ | _ <;>
    (rw [hmix] at hv; simp only [vocabFor] at hv;
     rw [refineVocab, hmix, if_pos hlen];
     exact decide_eq_false (fun hall => hv (hall p hp)))

/-- The `Set`-size duplicate check fails on any product list containing
two entries with the same non-empty type. -/
theorem noDupTypes_false {pre mid post : List Product} {p₁ p₂ : Product}
    (ht : p₁.type = p₂.type) (hne : p₁.type ≠ "") :
    noDupTypes (pre ++ p₁ :: (mid ++ p₂ :: post)) = false := by
  rw [noDupTypes]
  apply decide_eq_false
  intro hlen
  set L := (((pre ++ p₁ :: (mid ++ p₂ :: post)).map (fun p => p.type)).filter
    (fun t => t ≠ "")) with hL
  have hnd : L.Nodup := by
    have hsub := List.dedup_sublist L
    have heq : L.dedup = L := hsub.eq_of_length (by rw [distinctCount] at hlen; omega)
    rw [← heq]; exact List.nodup_dedup L
  have hL2 : L = ((pre.map (fun p => p.type)).filter (fun t => t ≠ "")) ++
      p₁.type :: (((mid.map (fun p => p.type)).filter (fun t => t ≠ "")) ++
        p₁.type :: ((post.map (fun p => p.type)).filter (fun t => t ≠ ""))) := by
    simp [hL, List.filter_cons, hne, ← ht]
  rw [hL2] at hnd
  have h2 := (List.nodup_append.1 hnd).2.1
  rw [List.nodup_cons] at h2
  exact h2.1 (List.mem_append_right _ (List.mem_cons_self _ _))

/-- Two products with the same type anywhere in the list force a
violation on field path `products` (the duplicate refinement when the type
is non-empty, the vocabulary refinement when it is the empty string). -/
theorem dup_products_issue {c : MixDataFormInput} {pre mid post : List Product}
    {p₁ p₂ : Product} (hps : c.products = pre ++ p₁ :: (mid ++ p₂ :: post))
    (ht : p₁.type = p₂.type) : ["products"] ∈ issuePaths c := by
  have hp₁ : p₁ ∈ c.products := by rw [hps]; simp
  by_cases hne : p₁.type = ""
  · refine vocab_issue hp₁ ?_
    rcases c.mixType with _ | _ <;> simp [vocabFor, hne, interlockTypes, boardsTiirTypes]
  · have hlen : 0 < c.products.length := List.length_pos_of_mem hp₁
    rcases hmix : c.mixType with _ | _
    · apply refineDupInterlock_issue
      rw [refineDupInterlock, if_pos ⟨hmix, hlen⟩, hps]
      exact noDupTypes_false ht hne
    · apply refineDupBoards_issue
      rw [refineDupBoards, if_pos ⟨hmix, hlen⟩, hps]
      exact noDupTypes_false ht hne

/-- A missing `birta` on a boards/tiir record forces a violation on field
path `birta`. -/
theorem birta_missing_issue {c : MixDataFormInput}
    (hmix : c.mixType = .boardsTiir) (hb : c.birta = none) :
    ["birta"] ∈ issuePaths c :=
  refineBirta_issue (by rw [refineBirta, if_pos ⟨hmix, hb⟩])

/-- A non-empty `colorType` outside the palette forces a violation on
field path `colorType`. -/
theorem color_invalid_issue {c : MixDataFormInput}
    (h1 : c.colorType ≠ "") (h2 : c.colorType ∉ colorOptions) :
    ["colorType"] ∈ issuePaths c :=
  refineColor_issue (decide_eq_false (by rintro (h | h) <;> contradiction))

/-! ### Example candidates used as concrete witnesses -/

/-- A candidate violating four rules at once: out-of-range `cement`,
missing `birta` under boards/tiir, an off-palette `colorType`, and a
duplicated product type. -/
def cMulti : MixDataFormInput :=
  { mixType := .boardsTiir, cement := -1, aggregate := 0, sand := 0, water := 0,
    plastizer := 0, birta := none, colorType := "Blue", colorQuantity := 0,
    products := [⟨"Tiir", 5⟩, ⟨"Tiir", 5⟩] }

/-- A fully valid interlock candidate that nevertheless carries a `birta`
value. -/
def cInterlockWithBirta : MixDataFormInput :=
  { mixType := .interlock, cement := 0, aggregate := 0, sand := 0, water := 0,
    plastizer := 0, birta := some 0, colorType := "", colorQuantity := 0,
    products := [⟨"Garden", 1⟩] }

/-- An interlock candidate carrying an out-of-range `birta` value. -/
def cInterlockBirtaTooBig : MixDataFormInput :=
  { cInterlockWithBirta with birta := some 10000 }

/-- An interlock candidate carrying the in-range `birta` value 5. -/
def cInterlockBirta5 : MixDataFormInput :=
  { cInterlockWithBirta with birta := some 5 }

/-- A boards/tiir candidate with `birta` absent. -/
def cBoardsNoBirta : MixDataFormInput :=
  { cInterlockWithBirta with
    mixType := .boardsTiir, birta := none,
    products := [⟨"Tiir", 1⟩] }

/-- An interlock candidate with the boards/tiir product type `Tiir`. -/
def cInterlockWithTiir : MixDataFormInput :=
  { cInterlockWithBirta with products := [⟨"Tiir", 1⟩] }

/-- An interlock candidate with an off-palette `colorType`. -/
def cColorBlue : MixDataFormInput :=
  { cInterlockWithBirta with colorType := "Blue" }

/-- A boards/tiir candidate with the product type `Tiir` selected twice. -/
def cDupTiir : MixDataFormInput :=
  { cBoardsNoBirta with
    birta := some 1,
    products := [⟨"Tiir", 1⟩, ⟨"Tiir", 2⟩] }

/-! ### The claim theorems about validation -/

/-- C1: on a candidate violating several rules at once (out-of-range
measurements, missing `birta` under boards/tiir, an invalid `colorType`,
a duplicated product type), `validate` reports a violation on every
offending field path simultaneously: each violated rule contributes its
path to `issuePaths` independently of the others. -/
theorem validate_reports_all_violations (c : MixDataFormInput) :
    (¬(0 ≤ c.cement ∧ c.cement ≤ 9999.99) → ["cement"] ∈ issuePaths c) ∧
    (¬(0 ≤ c.aggregate ∧ c.aggregate ≤ 9999.99) → ["aggregate"] ∈ issuePaths c) ∧
    (¬(0 ≤ c.sand ∧ c.sand ≤ 9999.99) → ["sand"] ∈ issuePaths c) ∧
    (¬(0 ≤ c.water ∧ c.water ≤ 9999.99) → ["water"] ∈ issuePaths c) ∧
    (¬(0 ≤ c.plastizer ∧ c.plastizer ≤ 9999.99) → ["plastizer"] ∈ issuePaths c) ∧
    (¬(0 ≤ c.colorQuantity ∧ c.colorQuantity ≤ 9999.99) → ["colorQuantity"] ∈ issuePaths c) ∧
    (c.mixType = .boardsTiir → c.birta = none → ["birta"] ∈ issuePaths c) ∧
    (c.colorType ≠ "" → c.colorType ∉ colorOptions → ["colorType"] ∈ issuePaths c) ∧
    (∀ pre mid post p₁ p₂, c.products = pre ++ p₁ :: (mid ++ p₂ :: post) →
      p₁.type = p₂.type → ["products"] ∈ issuePaths c) := by
  refine ⟨?_, ?_, ?_, ?_, ?_, ?_,
    fun hmix hb => birta_missing_issue hmix hb,
    fun h1 h2 => color_invalid_issue h1 h2,
    fun pre mid post p₁ p₂ hps ht => dup_products_issue hps ht⟩
  · intro h
    obtain ⟨x, hx, hp⟩ := mem_rangeIssues_self "cement" h
    exact hp ▸ base_path_mem (by rw [baseIssues]; exact List.mem_append_left _ hx)
  · intro h
    obtain ⟨x, hx, hp⟩ := mem_rangeIssues_self "aggregate" h
    exact hp ▸ base_path_mem (by
      rw [baseIssues]
      exact List.mem_append_right _ (List.mem_append_left _ hx))
  · intro h
    obtain ⟨x, hx, hp⟩ := mem_rangeIssues_self "sand" h
    exact hp ▸ base_path_mem (by
      rw [baseIssues]
      exact List.mem_append_right _ (List.mem_append_right _ (List.mem_append_left _ hx)))
  · intro h
    obtain ⟨x, hx, hp⟩ := mem_rangeIssues_self "water" h
    exact hp ▸ base_path_mem (by
      rw [baseIssues]
      exact List.mem_append_right _ (List.mem_append_right _ (List.mem_append_right _
        (List.mem_append_left _ hx))))
  · intro h
    obtain ⟨x, hx, hp⟩ := mem_rangeIssues_self "plastizer" h
    exact hp ▸ base_path_mem (by
      rw [baseIssues]
      exact List.mem_append_right _ (List.mem_append_right _ (List.mem_append_right _
        (List.mem_append_right _ (List.mem_append_left _ hx)))))
  · intro h
    obtain ⟨x, hx, hp⟩ := mem_rangeIssues_self "colorQuantity" h
    exact hp ▸ base_path_mem (by
      rw [baseIssues]
      exact List.mem_append_right _ (List.mem_append_right _ (List.mem_append_right _
        (List.mem_append_right _ (List.mem_append_right _ (List.mem_append_right _
          (List.mem_append_left _ hx)))))))

/-- C1 witness: `cMulti` violates four rules at once and all four field
paths are reported. -/
theorem validate_reports_all_violations_witness :
    ["cement"] ∈ issuePaths cMulti ∧ ["birta"] ∈ issuePaths cMulti ∧
    ["colorType"] ∈ issuePaths cMulti ∧ ["products"] ∈ issuePaths cMulti :=
  ⟨(validate_reports_all_violations cMulti).1 (by decide),
   (validate_reports_all_violations cMulti).2.2.2.2.2.2.1 (by decide) (by decide),
   (validate_reports_all_violations cMulti).2.2.2.2.2.2.2.1 (by decide) (by decide),
   (validate_reports_all_violations cMulti).2.2.2.2.2.2.2.2 [] [] [] ⟨"Tiir", 5⟩ ⟨"Tiir", 5⟩
     (by decide) (by decide)⟩

/-- C2 counterexample: an interlock candidate with the out-of-range value
`birta = 10000` does receive a violation on field path `birta` (the base
schema range-checks a present `birta` regardless of mix type), refuting
the claim that an interlock record never gets a `birta` violation for any
numeric value. -/
theorem interlock_birta_violation_counterexample :
    cInterlockBirtaTooBig.mixType = MixType.interlock ∧
      ["birta"] ∈ issuePaths cInterlockBirtaTooBig := by
  constructor
  · rfl
  · with_unfolding_all decide

/-- C2 (amended): for an interlock candidate, `validate` reports no
violation on field `birta` when `birta` is absent or is present with a
value within `[0, 9999]`; a present out-of-range `birta` still receives
the range violation. -/
theorem interlock_birta_no_violation (c : MixDataFormInput)
    (hmix : c.mixType = MixType.interlock)
    (hok : c.birta = none ∨ ∃ b, c.birta = some b ∧ 0 ≤ b ∧ b ≤ 9999) :
    ["birta"] ∉ issuePaths c :=
  not_birta_path hmix hok

/-- C2 witness: the interlock candidate with `birta = 5` receives no
`birta` violation. -/
theorem interlock_birta_no_violation_witness :
    ["birta"] ∉ issuePaths cInterlockBirta5 :=
  interlock_birta_no_violation cInterlockBirta5 rfl
    (Or.inr ⟨5, rfl, by decide, by decide⟩)

/-- C4: a boards/tiir candidate with `birta` absent is rejected with a
violation on field path `birta`. -/
theorem missing_birta_rejected (c : MixDataFormInput)
    (hmix : c.mixType = MixType.boardsTiir) (hb : c.birta = none) :
    ["birta"] ∈ issuePaths c ∧ mixDataIssues c ≠ [] := by
  have h := birta_missing_issue hmix hb
  refine ⟨h, fun hnil => ?_⟩
  rw [issuePaths, hnil] at h
  simp at h

/-- C4 witness: the boards/tiir candidate without `birta` is rejected on
field `birta`. -/
theorem missing_birta_rejected_witness :
    ["birta"] ∈ issuePaths cBoardsNoBirta ∧ mixDataIssues cBoardsNoBirta ≠ [] :=
  missing_birta_rejected cBoardsNoBirta rfl rfl

/-- C5: an empty `colorType` is accepted (no violation on `colorType`), a
non-empty `colorType` outside the palette is rejected with a violation on
`colorType`, and the submission transform maps an empty `colorType` to
the sentinel `'No Color'` while leaving every other input unchanged. -/
theorem colorType_empty_valid_and_normalized (c : MixDataFormInput) :
    (c.colorType = "" → ["colorType"] ∉ issuePaths c) ∧
    (c.colorType ≠ "" → c.colorType ∉ colorOptions → ["colorType"] ∈ issuePaths c) ∧
    (c.colorType = "" → transformedData c = { c with colorType := "No Color" }) ∧
    (c.colorType ≠ "" → transformedData c = c) := by
  refine ⟨?_, fun h1 h2 => color_invalid_issue h1 h2, ?_, ?_⟩
  · intro h
    exact not_colorType_path (by simp [refineColor, h])
  · intro h
    rw [transformedData, if_pos h]
  · intro h
    rw [transformedData, if_neg h]

/-- C5 witness: the empty `colorType` of `cInterlockWithBirta` is accepted
and normalized to `'No Color'`, and the off-palette `colorType` of
`cColorBlue` is rejected. -/
theorem colorType_empty_valid_and_normalized_witness :
    ["colorType"] ∉ issuePaths cInterlockWithBirta ∧
      ["colorType"] ∈ issuePaths cColorBlue ∧
      transformedData cInterlockWithBirta =
        { cInterlockWithBirta with colorType := "No Color" } ∧
      transformedData cColorBlue = cColorBlue :=
  ⟨(colorType_empty_valid_and_normalized cInterlockWithBirta).1 rfl,
   (colorType_empty_valid_and_normalized cColorBlue).2.1 (by decide) (by decide),
   (colorType_empty_valid_and_normalized cInterlockWithBirta).2.2.1 rfl,
   (colorType_empty_valid_and_normalized cColorBlue).2.2.2 (by decide)⟩

/-- C6: a candidate whose product list contains two entries with the same
type — at any two positions and under either mix type — receives a
violation on field path `products`. -/
theorem duplicate_product_type_rejected (c : MixDataFormInput)
    (pre mid post : List Product) (p₁ p₂ : Product)
    (hps : c.products = pre ++ p₁ :: (mid ++ p₂ :: post))
    (ht : p₁.type = p₂.type) : ["products"] ∈ issuePaths c :=
  dup_products_issue hps ht

/-- C6 witness: selecting `Tiir` twice is rejected on field `products`. -/
theorem duplicate_product_type_rejected_witness :
    ["products"] ∈ issuePaths cDupTiir :=
  duplicate_product_type_rejected cDupTiir [] [] [] ⟨"Tiir", 1⟩ ⟨"Tiir", 2⟩
    (by decide) (by decide)

/-- C7: a candidate containing a product whose type is outside the
vocabulary of the record's mix type (the six interlock types for
interlock; `Tiir` and `Boards` for boards/tiir) receives a violation on
field path `products`. -/
theorem foreign_product_type_rejected (c : MixDataFormInput) (p : Product)
    (hp : p ∈ c.products) (hv : p.type ∉ vocabFor c.mixType) :
    ["products"] ∈ issuePaths c :=
  vocab_issue hp hv

/-- C7 witness: `Tiir` under an interlock record is rejected on field
`products`. -/
theorem foreign_product_type_rejected_witness :
    ["products"] ∈ issuePaths cInterlockWithTiir :=
  foreign_product_type_rejected cInterlockWithTiir ⟨"Tiir", 1⟩ (by decide) (by decide)

/-- A fully valid boards/tiir candidate (with `birta` present). -/
def cBoardsValid : MixDataFormInput :=
  { cBoardsNoBirta with birta := some 1 }

/-- C3 counterexample: `cInterlockWithBirta` is accepted by `validate`
(it reports no issue), its mix type is interlock, and yet the record the
store's create operation builds from it carries a `birta` value — the
create operation spreads `birta` into the stored measurements whenever the
form input carries one, regardless of mix type. -/
theorem create_stores_birta_for_interlock :
    mixDataIssues cInterlockWithBirta = [] ∧
      cInterlockWithBirta.mixType = MixType.interlock ∧
      ((createMixData "3" "t3" cInterlockWithBirta).measurements.birta).isSome = true :=
  ⟨by with_unfolding_all decide, rfl, rfl⟩

/-- C3 (amended): for every accepted form input, the stored record's
`birta` equals the input's `birta` (present iff the input carried one);
since validation requires `birta` for boards/tiir, an accepted boards/tiir
input is always stored with `birta` — but an accepted interlock input that
carries a `birta` value is stored with it too. -/
theorem create_birta_matches_input (idStr tsStr : String)
    (c : MixDataFormInput) (h : mixDataIssues c = []) :
    (createMixData idStr tsStr c).measurements.birta = c.birta ∧
      (c.mixType = MixType.boardsTiir →
        ((createMixData idStr tsStr c).measurements.birta).isSome = true) := by
  refine ⟨rfl, fun hmix => ?_⟩
  have hr : refineIssues c = [] := (List.append_eq_nil.1 h).2
  have hb := condIssue_eq_nil (List.append_eq_nil.1 hr).1
  rw [refineBirta] at hb
  by_cases hcond : c.mixType = .boardsTiir ∧ c.birta = none
  · rw [if_pos hcond] at hb; cases hb
  · rcases hbb : c.birta with _ | b
    · exact absurd ⟨hmix, hbb⟩ hcond
    · simp [createMixData, hbb]

/-- C3 witness: the accepted boards/tiir input `cBoardsValid` is stored
with its `birta` value present. -/
theorem create_birta_matches_input_witness :
    (createMixData "id" "ts" cBoardsValid).measurements.birta = some 1 ∧
      ((createMixData "id" "ts" cBoardsValid).measurements.birta).isSome = true :=
  ⟨(create_birta_matches_input "id" "ts" cBoardsValid (by with_unfolding_all decide)).1,
   (create_birta_matches_input "id" "ts" cBoardsValid (by with_unfolding_all decide)).2 rfl⟩

/-- C10: the delete operation keeps exactly the records whose id differs
from the given one — in their original order and multiplicity — and is a
no-op (completing successfully) when no stored record has the given id. -/
theorem delete_removes_exactly_id (store : List MixData) (idStr : String) :
    (deleteMixData idStr store).Sublist store ∧
      (∀ r, r ∈ deleteMixData idStr store ↔ r ∈ store ∧ r.id ≠ idStr) ∧
      (∀ r, r.id ≠ idStr →
        (deleteMixData idStr store).count r = store.count r) ∧
      ((∀ r ∈ store, r.id ≠ idStr) → deleteMixData idStr store = store) := by
  refine ⟨List.filter_sublist _, ?_, ?_, ?_⟩
  · intro r
    simp [deleteMixData, List.mem_filter, and_comm]
  · intro r hr
    rw [deleteMixData, List.count_filter (by simpa using hr)]
  · intro hall
    rw [deleteMixData, List.filter_eq_self]
    intro r hr
    simpa using hall r hr

/-- The first demo record of the mock store: an interlock mix with the
products `Block Interlock 100` and `Garden 50`. -/
def rInterlockDemo : MixData :=
  { id := "1", timestamp := "t1", mixType := .interlock,
    measurements :=
      { cement := 350, aggregate := 1200, sand := 800, water := 175,
        plastizer := 5, birta := none, colorType := "Red", colorQuantity := 25,
        products := some [⟨"Block Interlock", 100⟩, ⟨"Garden", 50⟩] },
    createdBy := "demo-user", lastModified := "t1" }

/-- The second demo record of the mock store: a boards/tiir mix with the
products `Tiir 200` and `Boards 150`. -/
def rBoardsDemo : MixData :=
  { id := "2", timestamp := "t2", mixType := .boardsTiir,
    measurements :=
      { cement := 400, aggregate := 1100, sand := 750, water := 200,
        plastizer := 8, birta := some 50, colorType := "White", colorQuantity := 30,
        products := some [⟨"Tiir", 200⟩, ⟨"Boards", 150⟩] },
    createdBy := "demo-user", lastModified := "t2" }

/-- A record whose measurements carry no `products` list. -/
def rNoProducts : MixData :=
  { rInterlockDemo with
    id := "3",
    measurements := { rInterlockDemo.measurements with products := none } }

/-- C10 witness: deleting an unknown id leaves the store unchanged, and
the membership characterization holds on the demo store. -/
theorem delete_removes_exactly_id_witness :
    deleteMixData "zzz" [rInterlockDemo] = [rInterlockDemo] ∧
      (rInterlockDemo ∈ deleteMixData "1" [rInterlockDemo] ↔
        rInterlockDemo ∈ [rInterlockDemo] ∧ rInterlockDemo.id ≠ "1") :=
  ⟨(delete_removes_exactly_id [rInterlockDemo] "zzz").2.2.2 (by decide),
   (delete_removes_exactly_id [rInterlockDemo] "1").2.1 rInterlockDemo⟩

/-! ### Dictionary lemmas for the aggregation functions -/

theorem findV_updD {α : Type} (m : List (String × α)) (k : String) (d : α)
    (f : α → α) (q : String) :
    findV (updD m k d f) q =
      if q = k then some (f (getVD m k d)) else findV m q := by
  induction m with
  | nil =>
      by_cases hq : q = k
      · simp [updD, findV, getVD, hq]
      · simp [updD, findV, hq, Ne.symm hq]
  | cons kv rest ih =>
      obtain ⟨a, v⟩ := kv
      by_cases ha : a = k
      · subst ha
        by_cases hq : q = a
        · subst hq
          simp [updD, findV, getVD]
        · simp [updD, findV, getVD, hq, Ne.symm hq]
      · by_cases hq : q = a
        · subst hq
          simp [updD, findV, getVD, ha]
        · simp [updD, findV, getVD, ha, Ne.symm hq, ih]

theorem getVD_updD {α : Type} (m : List (String × α)) (k : String) (d : α)
    (f : α → α) (q : String) (d' : α) :
    getVD (updD m k d f) q d' =
      if q = k then f (getVD m k d) else getVD m q d' := by
  rw [getVD, findV_updD]
  by_cases hq : q = k <;> simp [hq, getVD]

theorem sumBy_updD {α : Type} (μ : α → ℚ) (m : List (String × α)) (k : String)
    (d : α) (f : α → α) (hd : μ d = 0) :
    sumBy μ (updD m k d f) =
      sumBy μ m + (μ (f (getVD m k d)) - μ (getVD m k d)) := by
  induction m with
  | nil => simp [updD, sumBy, getVD, findV, hd]
  | cons kv rest ih =>
      obtain ⟨a, v⟩ := kv
      by_cases ha : a = k
      · subst ha
        simp [updD, sumBy, getVD, findV]
        ring
      · simp only [updD, if_neg ha, sumBy, List.map_cons, List.sum_cons] at ih ⊢
        rw [ih]
        have : getVD rest k d = getVD ((a, v) :: rest) k d := by
          simp [getVD, findV, ha]
        rw [this]
        ring

theorem getVD_bumpQ (m : List (String × ℚ)) (k : String) (q : ℚ) (t : String) :
    getVD (bumpQ m k q) t 0 = getVD m t 0 + (if t = k then q else 0) := by
  rw [bumpQ, getVD_updD]
  by_cases ht : t = k <;> simp [ht]

theorem sumBy_bumpQ (m : List (String × ℚ)) (k : String) (q : ℚ) :
    sumBy (fun v => v) (bumpQ m k q) = sumBy (fun v => v) m + q := by
  rw [bumpQ, sumBy_updD (fun v => v) m k 0 (fun v => v + q) rfl]
  ring

/-! ### The mix-type aggregation (`calculateTotals`) -/

theorem pairFold_interlock (ps : List Product)
    (acc : List (String × ℚ) × List (String × ℚ)) :
    ps.foldl (fun acc2 p => (bumpQ acc2.1 p.type p.quantity, acc2.2)) acc =
      (ps.foldl (fun m p => bumpQ m p.type p.quantity) acc.1, acc.2) := by
  induction ps generalizing acc with
  | nil => rfl
  | cons p ps ih => simp [List.foldl_cons, ih]

theorem pairFold_boards (ps : List Product)
    (acc : List (String × ℚ) × List (String × ℚ)) :
    ps.foldl (fun acc2 p => (acc2.1, bumpQ acc2.2 p.type p.quantity)) acc =
      (acc.1, ps.foldl (fun m p => bumpQ m p.type p.quantity) acc.2) := by
  induction ps generalizing acc with
  | nil => rfl
  | cons p ps ih => simp [List.foldl_cons, ih]

theorem getVD_foldBump (ps : List Product) (m : List (String × ℚ)) (t : String) :
    getVD (ps.foldl (fun m p => bumpQ m p.type p.quantity) m) t 0 =
      getVD m t 0 + typeSum t ps := by
  induction ps generalizing m with
  | nil => simp [typeSum]
  | cons p ps ih =>
      rw [List.foldl_cons, ih, getVD_bumpQ]
      simp only [typeSum, List.map_cons, List.sum_cons]
      by_cases h : p.type = t
      · simp [h]; ring
      · simp [h, Ne.symm h]

theorem sumBy_foldBump (ps : List Product) (m : List (String × ℚ)) :
    sumBy (fun v => v) (ps.foldl (fun m p => bumpQ m p.type p.quantity) m) =
      sumBy (fun v => v) m + qsum ps := by
  induction ps generalizing m with
  | nil => simp [qsum]
  | cons p ps ih =>
      rw [List.foldl_cons, ih, sumBy_bumpQ]
      simp only [qsum, List.map_cons, List.sum_cons]
      ring

theorem totalsStep_get1 (acc : List (String × ℚ) × List (String × ℚ))
    (mix : MixData) (t : String) :
    getVD (totalsStep acc mix).1 t 0 = getVD acc.1 t 0 +
      (if mix.mixType = MixType.interlock then
        typeSum t (mix.measurements.products.getD []) else 0) := by
  rcases hp : mix.measurements.products with _ | ps
  · rcases hm : mix.mixType <;> simp [totalsStep, hp, typeSum]
  · rcases hm : mix.mixType with _ | _
    · simp only [totalsStep, hp, hm, Option.getD_some, if_pos]
      rw [pairFold_interlock, getVD_foldBump]
    · simp only [totalsStep, hp, hm, Option.getD_some]
      rw [pairFold_boards]
      simp

theorem totalsStep_get2 (acc : List (String × ℚ) × List (String × ℚ))
    (mix : MixData) (t : String) :
    getVD (totalsStep acc mix).2 t 0 = getVD acc.2 t 0 +
      (if mix.mixType = MixType.boardsTiir then
        typeSum t (mix.measurements.products.getD []) else 0) := by
  rcases hp : mix.measurements.products with _ | ps
  · rcases hm : mix.mixType <;> simp [totalsStep, hp, typeSum]
  · rcases hm : mix.mixType with _ | _
    · simp only [totalsStep, hp, hm, Option.getD_some]
      rw [pairFold_interlock]
      simp
    · simp only [totalsStep, hp, hm, Option.getD_some, if_pos]
      rw [pairFold_boards, getVD_foldBump]

theorem totalsStep_sum (acc : List (String × ℚ) × List (String × ℚ))
    (mix : MixData) :
    sumBy (fun v => v) (totalsStep acc mix).1 + sumBy (fun v => v) (totalsStep acc mix).2 =
      sumBy (fun v => v) acc.1 + sumBy (fun v => v) acc.2 +
        qsum (mix.measurements.products.getD []) := by
  rcases hp : mix.measurements.products with _ | ps
  · simp [totalsStep, hp, qsum]
  · rcases hm : mix.mixType with _ | _
    · simp only [totalsStep, hp, hm, Option.getD_some]
      rw [pairFold_interlock]
      simp only [sumBy_foldBump]
      ring
    · simp only [totalsStep, hp, hm, Option.getD_some]
      rw [pairFold_boards]
      simp only [sumBy_foldBump]
      ring

theorem fold_totals_get1 (recs : List MixData)
    (acc : List (String × ℚ) × List (String × ℚ)) (t : String) :
    getVD ((recs.foldl totalsStep acc).1) t 0 =
      getVD acc.1 t 0 + mixTypeSum recs .interlock t := by
  induction recs generalizing acc with
  | nil => simp [mixTypeSum]
  | cons r recs ih =>
      rw [List.foldl_cons, ih, totalsStep_get1]
      simp only [mixTypeSum, List.map_cons, List.sum_cons]
      ring

theorem fold_totals_get2 (recs : List MixData)
    (acc : List (String × ℚ) × List (String × ℚ)) (t : String) :
    getVD ((recs.foldl totalsStep acc).2) t 0 =
      getVD acc.2 t 0 + mixTypeSum recs .boardsTiir t := by
  induction recs generalizing acc with
  | nil => simp [mixTypeSum]
  | cons r recs ih =>
      rw [List.foldl_cons, ih, totalsStep_get2]
      simp only [mixTypeSum, List.map_cons, List.sum_cons]
      ring

theorem fold_totals_sum (recs : List MixData)
    (acc : List (String × ℚ) × List (String × ℚ)) :
    sumBy (fun v => v) ((recs.foldl totalsStep acc).1) +
      sumBy (fun v => v) ((recs.foldl totalsStep acc).2) =
      sumBy (fun v => v) acc.1 + sumBy (fun v => v) acc.2 +
        (recs.map (fun r => qsum (r.measurements.products.getD []))).sum := by
  induction recs generalizing acc with
  | nil => simp
  | cons r recs ih =>
      rw [List.foldl_cons, ih]
      rw [totalsStep_sum]
      simp only [List.map_cons, List.sum_cons]
      ring

set_option maxRecDepth 4000 in
/-- C8: `calculateTotals` maps, for each mix type, every product type to
the sum of the quantities of that product over the records of that mix
type; the displayed grand total is the sum of all product quantities (the
sum of all leaf values of the two dictionaries); the empty record list
yields empty dictionaries and grand total 0; and the two demo records
yield `Block Interlock 100, Garden 50` under interlock and
`Tiir 200, Boards 150` under boards/tiir with grand total 500. -/
theorem calculateTotals_correct :
    (∀ (recs : List MixData) (t : String),
      getVD (calculateTotals recs).1 t 0 = mixTypeSum recs .interlock t) ∧
    (∀ (recs : List MixData) (t : String),
      getVD (calculateTotals recs).2 t 0 = mixTypeSum recs .boardsTiir t) ∧
    (∀ recs : List MixData,
      grandTotal recs = (recs.map (fun r => qsum (r.measurements.products.getD []))).sum) ∧
    (calculateTotals [] = ([], []) ∧ grandTotal [] = 0) ∧
    (calculateTotals [rInterlockDemo, rBoardsDemo] =
        ([("Block Interlock", 100), ("Garden", 50)], [("Tiir", 200), ("Boards", 150)]) ∧
      grandTotal [rInterlockDemo, rBoardsDemo] = 500) := by
  refine ⟨?_, ?_, ?_, ⟨rfl, by with_unfolding_all rfl⟩,
    by with_unfolding_all decide⟩
  · intro recs t
    rw [calculateTotals, fold_totals_get1]
    simp [getVD, findV]
  · intro recs t
    rw [calculateTotals, fold_totals_get2]
    simp [getVD, findV]
  · intro recs
    rw [grandTotal, getTotalQuantity, getTotalQuantity, calculateTotals, fold_totals_sum]
    simp [sumBy]

/-! ### The color-grouped aggregation (`calculateColorTotals`) -/

theorem lookupColor_updD_id (g : List (String × List (String × List (String × ℚ))))
    (color c mt t : String) :
    lookupColor (updD g color [] (fun inner => inner)) c mt t =
      lookupColor g c mt t := by
  rw [lookupColor, getVD_updD]
  by_cases h : c = color
  · subst h; rw [if_pos rfl]; rfl
  · rw [if_neg h]; rfl

theorem lookupColor_updD_ensure2
    (g : List (String × List (String × List (String × ℚ))))
    (color mt0 c mt t : String) :
    lookupColor (updD g color []
        (fun inner => updD inner mt0 [] (fun inner2 => inner2))) c mt t =
      lookupColor g c mt t := by
  rw [lookupColor, getVD_updD]
  by_cases h : c = color
  · subst h
    rw [if_pos rfl, getVD_updD]
    by_cases h2 : mt = mt0
    · subst h2; rw [if_pos rfl]; rfl
    · rw [if_neg h2]; rfl
  · rw [if_neg h]; rfl

theorem lookupColor_bump3
    (g : List (String × List (String × List (String × ℚ))))
    (color mt0 ty : String) (q : ℚ) (c mt t : String) :
    lookupColor (updD g color []
        (fun inner => updD inner mt0 [] (fun inner2 => bumpQ inner2 ty q))) c mt t =
      lookupColor g c mt t + (if c = color ∧ mt = mt0 ∧ t = ty then q else 0) := by
  rw [lookupColor, getVD_updD]
  by_cases h : c = color
  · subst h
    rw [if_pos rfl, getVD_updD]
    by_cases h2 : mt = mt0
    · subst h2
      rw [if_pos rfl, getVD_bumpQ]
      by_cases h3 : t = ty
      · simp [h3, lookupColor]
      · simp [h3, lookupColor]
    · rw [if_neg h2]
      have hcond : ¬(c = c ∧ mt = mt0 ∧ t = ty) := fun hh => h2 hh.2.1
      rw [if_neg hcond, lookupColor]
      ring
  · rw [if_neg h]
    have hcond : ¬(c = color ∧ mt = mt0 ∧ t = ty) := fun hh => h hh.1
    rw [if_neg hcond, lookupColor]
    ring

theorem colorLeafSum_updD_id
    (g : List (String × List (String × List (String × ℚ)))) (color : String) :
    colorLeafSum (updD g color [] (fun inner => inner)) = colorLeafSum g := by
  rw [colorLeafSum,
    sumBy_updD (sumBy (sumBy (fun v => v))) g color [] (fun inner => inner) rfl]
  rw [colorLeafSum]
  ring

theorem colorLeafSum_updD_ensure2
    (g : List (String × List (String × List (String × ℚ))))
    (color mt0 : String) :
    colorLeafSum (updD g color []
        (fun inner => updD inner mt0 [] (fun inner2 => inner2))) = colorLeafSum g := by
  rw [colorLeafSum,
    sumBy_updD (sumBy (sumBy (fun v => v))) g color []
      (fun inner => updD inner mt0 [] (fun inner2 => inner2)) rfl,
    sumBy_updD (sumBy (fun v => v)) (getVD g color []) mt0 []
      (fun inner2 => inner2) rfl]
  rw [colorLeafSum]
  ring

theorem colorLeafSum_bump3
    (g : List (String × List (String × List (String × ℚ))))
    (color mt0 ty : String) (q : ℚ) :
    colorLeafSum (updD g color []
        (fun inner => updD inner mt0 [] (fun inner2 => bumpQ inner2 ty q))) =
      colorLeafSum g + q := by
  rw [colorLeafSum,
    sumBy_updD (sumBy (sumBy (fun v => v))) g color []
      (fun inner => updD inner mt0 [] (fun inner2 => bumpQ inner2 ty q)) rfl,
    sumBy_updD (sumBy (fun v => v)) (getVD g color []) mt0 []
      (fun inner2 => bumpQ inner2 ty q) rfl,
    sumBy_bumpQ]
  rw [colorLeafSum]
  ring

theorem lookupColor_foldBump3 (ps : List Product)
    (g : List (String × List (String × List (String × ℚ))))
    (color mt0 c mt t : String) :
    lookupColor (ps.foldl
        (fun gg p => updD gg color []
          (fun inner => updD inner mt0 []
            (fun inner2 => bumpQ inner2 p.type p.quantity))) g) c mt t =
      lookupColor g c mt t + (if c = color ∧ mt = mt0 then typeSum t ps else 0) := by
  induction ps generalizing g with
  | nil => simp [typeSum]
  | cons p ps ih =>
      rw [List.foldl_cons, ih, lookupColor_bump3]
      simp only [typeSum, List.map_cons, List.sum_cons]
      by_cases h : c = color ∧ mt = mt0
      · by_cases h3 : t = p.type
        · have : c = color ∧ mt = mt0 ∧ t = p.type := ⟨h.1, h.2, h3⟩
          rw [if_pos this, if_pos h, if_pos h]
          rw [if_pos h3.symm]
          ring
        · have : ¬(c = color ∧ mt = mt0 ∧ t = p.type) := fun hh => h3 hh.2.2
          rw [if_neg this, if_pos h, if_pos h]
          rw [if_neg (fun hh => h3 hh.symm)]
          ring
      · have : ¬(c = color ∧ mt = mt0 ∧ t = p.type) := fun hh => h ⟨hh.1, hh.2.1⟩
        rw [if_neg this, if_neg h, if_neg h]
        ring

theorem colorLeafSum_foldBump3 (ps : List Product)
    (g : List (String × List (String × List (String × ℚ))))
    (color mt0 : String) :
    colorLeafSum (ps.foldl
        (fun gg p => updD gg color []
          (fun inner => updD inner mt0 []
            (fun inner2 => bumpQ inner2 p.type p.quantity))) g) =
      colorLeafSum g + qsum ps := by
  induction ps generalizing g with
  | nil => simp [qsum]
  | cons p ps ih =>
      rw [List.foldl_cons, ih, colorLeafSum_bump3]
      simp only [qsum, List.map_cons, List.sum_cons]
      ring

theorem lookupColor_colorStep
    (g : List (String × List (String × List (String × ℚ))))
    (mix : MixData) (c mt t : String) :
    lookupColor (colorStep g mix) c mt t = lookupColor g c mt t +
      (if c = colorOf mix ∧ mt = mixTypeStr mix.mixType then
        typeSum t (mix.measurements.products.getD []) else 0) := by
  rcases hp : mix.measurements.products with _ | ps
  · simp only [colorStep, hp]
    rw [lookupColor_updD_ensure2, lookupColor_updD_id]
    simp [typeSum]
  · simp only [colorStep, hp]
    rw [lookupColor_foldBump3, lookupColor_updD_ensure2, lookupColor_updD_id]
    rfl

theorem colorLeafSum_colorStep
    (g : List (String × List (String × List (String × ℚ)))) (mix : MixData) :
    colorLeafSum (colorStep g mix) =
      colorLeafSum g + qsum (mix.measurements.products.getD []) := by
  rcases hp : mix.measurements.products with _ | ps
  · simp only [colorStep, hp]
    rw [colorLeafSum_updD_ensure2, colorLeafSum_updD_id]
    simp [qsum]
  · simp only [colorStep, hp]
    rw [colorLeafSum_foldBump3, colorLeafSum_updD_ensure2, colorLeafSum_updD_id]
    rfl

theorem lookupColor_fold (recs : List MixData)
    (acc : List (String × List (String × List (String × ℚ))))
    (c mt t : String) :
    lookupColor (recs.foldl colorStep acc) c mt t =
      lookupColor acc c mt t + colorSum recs c mt t := by
  induction recs generalizing acc with
  | nil => simp [colorSum]
  | cons r recs ih =>
      rw [List.foldl_cons, ih, lookupColor_colorStep]
      simp only [colorSum, List.map_cons, List.sum_cons]
      ring

theorem colorLeafSum_fold (recs : List MixData)
    (acc : List (String × List (String × List (String × ℚ)))) :
    colorLeafSum (recs.foldl colorStep acc) = colorLeafSum acc +
      (recs.map (fun r => qsum (r.measurements.products.getD []))).sum := by
  induction recs generalizing acc with
  | nil => simp
  | cons r recs ih =>
      rw [List.foldl_cons, ih, colorLeafSum_colorStep]
      simp only [List.map_cons, List.sum_cons]
      ring

/-- C9: the aggregation functions are total by construction (each returns
a plain value on every record list), and a record whose measurements carry
no `products` list contributes zero everywhere: removing it changes
neither the mix-type totals, nor the product-type totals, nor any bucket
or the leaf-sum grand total of the color-grouped totals, nor the displayed
grand total. -/
theorem aggregators_ignore_missing_products (pre post : List MixData)
    (r : MixData) (h : r.measurements.products = none) :
    calculateTotals (pre ++ r :: post) = calculateTotals (pre ++ post) ∧
      calculateProductTotals (pre ++ r :: post) = calculateProductTotals (pre ++ post) ∧
      (∀ c mt t, lookupColor (calculateColorTotals (pre ++ r :: post)) c mt t =
        lookupColor (calculateColorTotals (pre ++ post)) c mt t) ∧
      colorLeafSum (calculateColorTotals (pre ++ r :: post)) =
        colorLeafSum (calculateColorTotals (pre ++ post)) ∧
      grandTotal (pre ++ r :: post) = grandTotal (pre ++ post) := by
  have hT : calculateTotals (pre ++ r :: post) = calculateTotals (pre ++ post) := by
    rw [calculateTotals, calculateTotals, List.foldl_append, List.foldl_append,
      List.foldl_cons]
    have : totalsStep (pre.foldl totalsStep ([], [])) r =
        pre.foldl totalsStep ([], []) := by
      rw [totalsStep, h]
    rw [this]
  refine ⟨hT, ?_, ?_, ?_, ?_⟩
  · rw [calculateProductTotals, calculateProductTotals, List.foldl_append,
      List.foldl_append, List.foldl_cons]
    have : productStep (pre.foldl productStep []) r = pre.foldl productStep [] := by
      rw [productStep, h]
    rw [this]
  · intro c mt t
    rw [calculateColorTotals, calculateColorTotals, lookupColor_fold, lookupColor_fold]
    have : colorSum (pre ++ r :: post) c mt t = colorSum (pre ++ post) c mt t := by
      simp [colorSum, h, typeSum]
    rw [this]
  · rw [calculateColorTotals, calculateColorTotals, colorLeafSum_fold, colorLeafSum_fold]
    have : ((pre ++ r :: post).map
          (fun r => qsum (r.measurements.products.getD []))).sum =
        ((pre ++ post).map (fun r => qsum (r.measurements.products.getD []))).sum := by
      simp [h, qsum]
    rw [this]
  · rw [grandTotal, grandTotal, hT]

/-- C9 witness: on concrete stores, dropping the products-less record
`rNoProducts` leaves every aggregation result and total unchanged. -/
theorem aggregators_ignore_missing_products_witness :
    calculateTotals [rInterlockDemo, rNoProducts] = calculateTotals [rInterlockDemo] ∧
      calculateProductTotals [rNoProducts] = calculateProductTotals [] ∧
      lookupColor (calculateColorTotals [rNoProducts]) "Red" "interlock" "Garden" =
        lookupColor (calculateColorTotals []) "Red" "interlock" "Garden" ∧
      colorLeafSum (calculateColorTotals [rNoProducts]) =
        colorLeafSum (calculateColorTotals []) ∧
      grandTotal [rInterlockDemo, rNoProducts] = grandTotal [rInterlockDemo] :=
  ⟨(aggregators_ignore_missing_products [rInterlockDemo] [] rNoProducts rfl).1,
   (aggregators_ignore_missing_products [] [] rNoProducts rfl).2.1,
   (aggregators_ignore_missing_products [] [] rNoProducts rfl).2.2.1 "Red" "interlock" "Garden",
   (aggregators_ignore_missing_products [] [] rNoProducts rfl).2.2.2.1,
   (aggregators_ignore_missing_products [rInterlockDemo] [] rNoProducts rfl).2.2.2.2⟩

end NMS
